import Mathlib

/-!
Shallow embedding of the URL-shortener service in `index.js`:
the Mongo-backed state (a list of `Url` documents plus the `Counter`
collection), the `getNextSequence` allocator, the URL-validation helpers
`isValidHttpUrl` / `getHostname`, and the two route handlers
`POST /api/shorturl` (create) and `GET /api/shorturl/:short_url` (resolve).

External library behaviour the handlers observe is modelled explicitly:
the WHATWG `new URL(input)` constructor (protocol and hostname of an
absolute URL), the JavaScript `Number(string)` conversion together with
`Number.isFinite`, and `dns.lookup` as an oracle `String → Bool`.
Asynchronous I/O is modelled as sequential state passing; a possible
failure of `newUrl.save()` is a Boolean parameter of the create handler.
-/

namespace UrlShortener

/-- A document of the `Url` collection: `{ original_url, short_url }`.
`short_url` carries a unique index in the schema. -/
structure UrlMapping where
  original_url : String
  short_url : Nat
deriving DecidableEq

/-- The durable state: the `Url` collection in insertion order, and the
`Counter` collection as an association list from `_id` to `seq`. -/
structure DB where
  urls : List UrlMapping
  counters : List (String × Nat)
deriving DecidableEq

/-- Response bodies the two handlers can produce. -/
inductive Body where
  | errorMsg : String → Body
  | mapping : String → Nat → Body
  | redirect : String → Body
deriving DecidableEq

/-- An HTTP response: status code and JSON (or redirect) body.
`res.json` without `res.status` sends 200; `res.redirect` sends 302. -/
structure Resp where
  status : Nat
  body : Body
deriving DecidableEq

/-- Lookup of a counter row by its `_id`. -/
def counterFind (cs : List (String × Nat)) (name : String) : Option Nat :=
  match cs with
  | [] => none
  | (n, v) :: rest => if n = name then some v else counterFind rest name

/-- Atomic upsert-and-increment on the counter collection, the model of
`Counter.findOneAndUpdate({_id: name}, {$inc: {seq: 1}}, {new: true, upsert: true})`:
an absent row is created with the schema default `seq = 0` and then
incremented.  Returns the post-increment value and the updated collection. -/
def counterIncr (cs : List (String × Nat)) (name : String) : Nat × List (String × Nat) :=
  match cs with
  | [] => (1, [(name, 1)])
  | (n, v) :: rest =>
    if n = name then (v + 1, (n, v + 1) :: rest)
    else
      let r := counterIncr rest name
      (r.1, (n, v) :: r.2)

/-- `getNextSequence(name)` from `index.js`: atomic increment with upsert,
returning the updated `seq`. -/
def getNextSequence (name : String) (db : DB) : Nat × DB :=
  let r := counterIncr db.counters name
  (r.1, { db with counters := r.2 })

/-- The current value of a counter row, with the schema default 0 when the
row is absent. -/
def counterVal (db : DB) (name : String) : Nat :=
  (counterFind db.counters name).getD 0

/-! ### Model of the WHATWG URL constructor -/

/-- Leading and trailing C0-control-or-space characters are stripped by the
URL constructor. -/
def isUrlSpace (c : Char) : Bool := c ≤ ' '

/-- Strip `isUrlSpace` characters from both ends. -/
def urlTrim (cs : List Char) : List Char :=
  ((cs.dropWhile isUrlSpace).reverse.dropWhile isUrlSpace).reverse

/-- A character allowed to start a URL scheme. -/
def isSchemeStart (c : Char) : Bool := c.isAlpha

/-- A character allowed inside a URL scheme. -/
def isSchemeChar (c : Char) : Bool :=
  c.isAlpha || c.isDigit || c = '+' || c = '-' || c = '.'

/-- Split off the scheme before the first `:`; fails when no `:` is reached
over scheme characters. -/
def schemeSplitAux (acc : List Char) : List Char → Option (List Char × List Char)
  | [] => none
  | c :: cs =>
    if c = ':' then some (acc.reverse, cs)
    else if isSchemeChar c then schemeSplitAux (c :: acc) cs
    else none

/-- Split `cs` into scheme and remainder; the first character must be a
letter. -/
def schemeSplit (cs : List Char) : Option (List Char × List Char) :=
  match cs with
  | [] => none
  | c :: _ => if isSchemeStart c then schemeSplitAux [] cs else none

/-- The special schemes whose URLs carry a mandatory, non-empty host. -/
def specialSchemes : List String := ["http", "https", "ws", "wss", "ftp"]

/-- A character terminating the host portion of a URL. -/
def isHostEnd (c : Char) : Bool :=
  c = '/' || c = '\\' || c = '?' || c = '#' || c = ':'

/-- The parts of a parsed URL the code observes: `parsed.protocol`
(scheme plus a trailing colon) and `parsed.hostname`. -/
structure ParsedUrl where
  protocol : String
  hostname : String
deriving DecidableEq

/-- Model of `new URL(input)` restricted to the behaviour `index.js`
observes: the scheme is parsed and lower-cased; for a special scheme the
slashes are skipped and a non-empty host is required (the constructor
throws otherwise — modelled as `none`); other schemes parse with an opaque
path and an empty hostname.  The `file:` scheme's empty-host special cases
are outside the model. -/
def parseURL (input : String) : Option ParsedUrl :=
  match schemeSplit (urlTrim input.data) with
  | none => none
  | some (sch, rest) =>
    let scheme := String.mk (sch.map Char.toLower)
    if specialSchemes.contains scheme then
      let afterSlashes := rest.dropWhile (fun c => c = '/' || c = '\\')
      let host := afterSlashes.takeWhile (fun c => !(isHostEnd c))
      if host.isEmpty then none
      else some ⟨scheme ++ (":"), String.mk (host.map Char.toLower)⟩
    else some ⟨scheme ++ (":"), ("")⟩

/-- `isValidHttpUrl(input)` from `index.js`: `new URL(input)` succeeds and
its protocol is `http:` or `https:`; a constructor throw yields `false`. -/
def isValidHttpUrl (input : String) : Bool :=
  match parseURL input with
  | some parsed => parsed.protocol == ("http:") || parsed.protocol == ("https:")
  | none => false

/-- `getHostname(input)` from `index.js`: the parsed hostname, or `null`
(here `none`) when the constructor throws. -/
def getHostname (input : String) : Option String :=
  match parseURL input with
  | some parsed => some parsed.hostname
  | none => none

/-! ### Model of JavaScript `Number(string)` -/

/-- A finite JavaScript number produced by `Number(string)`, represented
exactly as `mant * 10 ^ exp10`. -/
structure JsNum where
  mant : Int
  exp10 : Int
deriving DecidableEq

/-- Numeric equality between a `JsNum` and a natural number, as used by the
`findOne({short_url: short})` query. -/
def JsNum.eqNat (v : JsNum) (k : Nat) : Bool :=
  if 0 ≤ v.exp10 then v.mant * 10 ^ v.exp10.toNat == (k : Int)
  else v.mant == (k : Int) * 10 ^ (-v.exp10).toNat

/-- JavaScript string whitespace for `Number` conversion (the Unicode space
characters beyond ASCII are outside the model). -/
def isJsSpace (c : Char) : Bool :=
  c = ' ' || c = '\t' || c = '\n' || c = '\r' || c = '\x0b' || c = '\x0c'

/-- Strip `isJsSpace` characters from both ends. -/
def jsTrim (cs : List Char) : List Char :=
  ((cs.dropWhile isJsSpace).reverse.dropWhile isJsSpace).reverse

/-- A decimal digit's value. -/
def decDigit (c : Char) : Option Nat :=
  if c.isDigit then some (c.toNat - ('0').toNat) else none

/-- A hexadecimal digit's value. -/
def hexDigit (c : Char) : Option Nat :=
  if c.isDigit then some (c.toNat - ('0').toNat)
  else if 'a' ≤ c && c ≤ 'f' then some (c.toNat - ('a').toNat + 10)
  else if 'A' ≤ c && c ≤ 'F' then some (c.toNat - ('A').toNat + 10)
  else none

/-- An octal digit's value. -/
def octDigit (c : Char) : Option Nat :=
  if '0' ≤ c && c ≤ '7' then some (c.toNat - ('0').toNat) else none

/-- A binary digit's value. -/
def binDigit (c : Char) : Option Nat :=
  if c = '0' then some 0 else if c = '1' then some 1 else none

/-- Read a run of digits in the given base: accumulated value, number of
digits consumed, and the rest. -/
def readDigitsBase (base : Nat) (dval : Char → Option Nat) (acc : Nat) (cnt : Nat) :
    List Char → Nat × Nat × List Char
  | [] => (acc, cnt, [])
  | c :: cs =>
    match dval c with
    | some d => readDigitsBase base dval (acc * base + d) (cnt + 1) cs
    | none => (acc, cnt, c :: cs)

/-- A non-decimal integer literal (`0x…`, `0o…`, `0b…`): the whole rest must
be digits of the base, at least one. -/
def radixNum (base : Nat) (dval : Char → Option Nat) (ds : List Char) : Option JsNum :=
  let r := readDigitsBase base dval 0 0 ds
  if r.2.1 = 0 || !r.2.2.isEmpty then none else some ⟨r.1, 0⟩

/-- The exponent digits after `e`/`E` and an optional sign; the rest must be
empty. -/
def parseExpDigits (mant : Int) (shift : Int) (sgn : Int) (ds : List Char) : Option JsNum :=
  let r := readDigitsBase 10 decDigit 0 0 ds
  if r.2.1 = 0 || !r.2.2.isEmpty then none
  else some ⟨mant, shift + sgn * (r.1 : Int)⟩

/-- An optional exponent part closing a decimal literal. -/
def parseExpPart (mant : Int) (shift : Int) : List Char → Option JsNum
  | [] => some ⟨mant, shift⟩
  | c :: cs =>
    if c = 'e' || c = 'E' then
      match cs with
      | '+' :: ds => parseExpDigits mant shift 1 ds
      | '-' :: ds => parseExpDigits mant shift (-1) ds
      | ds => parseExpDigits mant shift 1 ds
    else none

/-- The body of a decimal literal after an optional sign:
`digits [. digits] [exp]`, with at least one digit around the point. -/
def parseDecBody (sgn : Int) (cs : List Char) : Option JsNum :=
  let ri := readDigitsBase 10 decDigit 0 0 cs
  match ri.2.2 with
  | '.' :: r2 =>
    let rf := readDigitsBase 10 decDigit ri.1 0 r2
    if ri.2.1 + rf.2.1 = 0 then none
    else parseExpPart (sgn * (rf.1 : Int)) (-(rf.2.1 : Int)) rf.2.2
  | _ =>
    if ri.2.1 = 0 then none
    else parseExpPart (sgn * (ri.1 : Int)) 0 ri.2.2

/-- A decimal literal after the sign: `Infinity` is non-finite (`none`),
anything else is parsed by `parseDecBody`. -/
def parseAfterSign (sgn : Int) (cs : List Char) : Option JsNum :=
  if cs = ("Infinity").data then none else parseDecBody sgn cs

/-- A signed decimal literal. -/
def signedDec (cs : List Char) : Option JsNum :=
  match cs with
  | '+' :: rest => parseAfterSign 1 rest
  | '-' :: rest => parseAfterSign (-1) rest
  | _ => parseAfterSign 1 cs

/-- Model of `Number(s)` followed by the `Number.isFinite` test of the
resolve handler: `some v` is a finite value, `none` is `NaN` or `±Infinity`.
The empty (or all-whitespace) string converts to 0; `0x`/`0o`/`0b` literals
carry no sign; `Infinity` and unparsable strings are non-finite. -/
def jsNumber (s : String) : Option JsNum :=
  match jsTrim s.data with
  | [] => some ⟨0, 0⟩
  | '0' :: x :: rest =>
    if x = 'x' || x = 'X' then radixNum 16 hexDigit rest
    else if x = 'o' || x = 'O' then radixNum 8 octDigit rest
    else if x = 'b' || x = 'B' then radixNum 2 binDigit rest
    else signedDec ('0' :: x :: rest)
  | cs => signedDec cs

/-! ### The route handlers -/

/-- A request body for `POST /api/shorturl`: each of the three accepted
field names is either absent or a string. -/
structure ReqBody where
  url : Option String
  original_url : Option String
  input : Option String
deriving DecidableEq

/-- JavaScript string truthiness: only the empty string is falsy. -/
def jsTruthy (s : String) : Bool := !(s == (""))

/-- JavaScript `a || b` on possibly-absent strings: a present, truthy left
operand wins, otherwise the right operand is the result. -/
def jsOrStr (a b : Option String) : Option String :=
  match a with
  | some s => if jsTruthy s then some s else b
  | none => b

/-- `req.body.url || req.body.original_url || req.body.input` from the
create handler. -/
def extractUrl (b : ReqBody) : Option String :=
  jsOrStr b.url (jsOrStr b.original_url b.input)

/-- The `{"error": "invalid url"}` JSON response, sent with the default
status 200. -/
def invalidResp : Resp := ⟨200, .errorMsg ("invalid url")⟩

/-- The `{"error": "server error"}` response with status 500. -/
def serverErrorResp : Resp := ⟨500, .errorMsg ("server error")⟩

/-- The 404 `{"error": "No short URL found for given input"}` response. -/
def notFoundResp : Resp := ⟨404, .errorMsg ("No short URL found for given input")⟩

/-- The `POST /api/shorturl` handler.  `dns` is the `dns.lookup` oracle
(`true` when the hostname resolves); `saveFails` says whether
`newUrl.save()` throws.  Returns the response and the post-state. -/
def createHandler (dns : String → Bool) (saveFails : Bool) (b : ReqBody) (db : DB) :
    Resp × DB :=
  match extractUrl b with
  | none => (invalidResp, db)
  | some original_url =>
    if !(jsTruthy original_url) || !(isValidHttpUrl original_url) then (invalidResp, db)
    else
      match getHostname original_url with
      | none => (invalidResp, db)
      | some hostname =>
        if hostname == ("") then (invalidResp, db)
        else if !(dns hostname) then (invalidResp, db)
        else
          match db.urls.find? (fun m => m.original_url == original_url) with
          | some existing => (⟨200, .mapping existing.original_url existing.short_url⟩, db)
          | none =>
            let r := getNextSequence ("url_count") db
            if saveFails then (serverErrorResp, r.2)
            else
              (⟨200, .mapping original_url r.1⟩,
                { r.2 with urls := r.2.urls ++ [⟨original_url, r.1⟩] })

/-- The `GET /api/shorturl/:short_url` handler.  `dbFails` says whether the
store lookup throws.  Returns the response and the number of store lookups
performed. -/
def resolveHandler (dbFails : Bool) (db : DB) (par : String) : Resp × Nat :=
  match jsNumber par with
  | none => (invalidResp, 0)
  | some v =>
    if dbFails then (serverErrorResp, 1)
    else
      match db.urls.find? (fun m => v.eqNat m.short_url) with
      | none => (notFoundResp, 1)
      | some entry => (⟨302, .redirect entry.original_url⟩, 1)

/-- Sequential execution of one create per URL, each with the URL in the
`url` body field, threading the state. -/
def createAll (dns : String → Bool) (db : DB) : List String → List Resp × DB
  | [] => ([], db)
  | u :: us =>
    let r := createHandler dns false ⟨some u, none, none⟩ db
    let rest := createAll dns r.2 us
    (r.1 :: rest.1, rest.2)

/-- The input of a create that the handler accepts: a non-empty string,
valid per `isValidHttpUrl`, whose hostname is non-empty and resolves under
the `dns` oracle. -/
def validFor (dns : String → Bool) (u : String) : Prop :=
  u ≠ ("") ∧ isValidHttpUrl u = true ∧
    ∃ h, getHostname u = some h ∧ h ≠ ("") ∧ dns h = true

/-- Store well-formedness maintained by the unique index on `short_url` and
the allocator: assigned ids are pairwise distinct and never exceed the
current counter value. -/
def DB.WF (db : DB) : Prop :=
  (db.urls.map (fun m => m.short_url)).Nodup ∧
    ∀ m ∈ db.urls, m.short_url ≤ counterVal db ("url_count")

/-- The empty state: no mappings, no counter row. -/
def dbEmpty : DB := ⟨[], []⟩

/-- A sample populated state with ids 1, 2, 3. -/
def db3 : DB :=
  ⟨[⟨("http://one.example"), 1⟩, ⟨("http://two.example"), 2⟩, ⟨("http://three.example"), 3⟩],
    [(("url_count"), 3)]⟩

/-- The responses of successful creates for `us` with ids counting up from
`k`. -/
def seqResps : List String → Nat → List Resp
  | [], _ => []
  | u :: us, k => ⟨200, .mapping u k⟩ :: seqResps us (k + 1)

/-- The mappings inserted by successful creates for `us` with ids counting
up from `k`. -/
def newEntries : List String → Nat → List UrlMapping
  | [], _ => []
  | u :: us, k => ⟨u, k⟩ :: newEntries us (k + 1)

/-- The claim's reading of body-field extraction: the first PRESENT field
among `url`, `original_url`, `input` wins, regardless of its value. -/
def extractUrlClaimed (b : ReqBody) : Option String :=
  match b.url with
  | some s => some s
  | none =>
    match b.original_url with
    | some s => some s
    | none => b.input

/-! ### Helper lemmas -/

theorem counterIncr_fst (cs : List (String × Nat)) (name : String) :
    (counterIncr cs name).1 = (counterFind cs name).getD 0 + 1 := by
  induction cs with
  | nil => rfl
  | cons p rest ih =>
    obtain ⟨n, v⟩ := p
    by_cases h : n = name
    · simp [counterIncr, counterFind, h]
    · simp [counterIncr, counterFind, h, ih]

theorem counterFind_counterIncr (cs : List (String × Nat)) (name : String) :
    counterFind (counterIncr cs name).2 name =
      some ((counterFind cs name).getD 0 + 1) := by
  induction cs with
  | nil => simp [counterIncr, counterFind]
  | cons p rest ih =>
    obtain ⟨n, v⟩ := p
    by_cases h : n = name
    · simp [counterIncr, counterFind, h]
    · simp [counterIncr, counterFind, h, ih]

theorem JsNum.eqNat_inj {v : JsNum} {a b : Nat} (ha : v.eqNat a = true)
    (hb : v.eqNat b = true) : a = b := by
  unfold JsNum.eqNat at ha hb
  by_cases h : 0 ≤ v.exp10
  · rw [if_pos h] at ha hb
    have ha' : v.mant * 10 ^ v.exp10.toNat = (a : Int) := by simpa using ha
    have hb' : v.mant * 10 ^ v.exp10.toNat = (b : Int) := by simpa using hb
    have : ((a : Int)) = (b : Int) := ha'.symm.trans hb'
    exact_mod_cast this
  · rw [if_neg h] at ha hb
    have ha' : v.mant = (a : Int) * 10 ^ (-v.exp10).toNat := by simpa using ha
    have hb' : v.mant = (b : Int) * 10 ^ (-v.exp10).toNat := by simpa using hb
    have hE : (0 : Int) < 10 ^ (-v.exp10).toNat := by positivity
    have hab : (a : Int) * 10 ^ (-v.exp10).toNat = (b : Int) * 10 ^ (-v.exp10).toNat :=
      ha'.symm.trans hb'
    have := mul_right_cancel₀ (ne_of_gt hE) hab
    exact_mod_cast this

theorem find?_cons_ite {α : Type} {p : α → Bool} {a : α} {l : List α} :
    (a :: l).find? p = if p a then some a else l.find? p := by
  by_cases h : p a
  · simp [h]
  · simp [h]

theorem find?_eqNat_unique {v : JsNum} {l : List UrlMapping} {m : UrlMapping}
    (hnd : (l.map (fun x => x.short_url)).Nodup) (hm : m ∈ l)
    (hv : v.eqNat m.short_url = true) :
    l.find? (fun y => v.eqNat y.short_url) = some m := by
  induction l with
  | nil => simp at hm
  | cons y rest ih =>
    simp only [List.map_cons, List.nodup_cons] at hnd
    obtain ⟨hy_notin, hrest⟩ := hnd
    by_cases hy : v.eqNat y.short_url = true
    · rw [find?_cons_ite, if_pos hy]
      rcases List.mem_cons.1 hm with rfl | hm'
      · rfl
      · exfalso
        have h1 : m.short_url ∈ rest.map (fun x => x.short_url) :=
          List.mem_map_of_mem (fun x => x.short_url) hm'
        rw [← JsNum.eqNat_inj hy hv] at h1
        exact hy_notin h1
    · rw [find?_cons_ite, if_neg hy]
      rcases List.mem_cons.1 hm with rfl | hm'
      · exact absurd hv hy
      · exact ih hrest hm'

theorem createHandler_validated (dns : String → Bool) (sf : Bool) (b : ReqBody)
    (db : DB) (u : String) (hb : extractUrl b = some u) (hv : validFor dns u) :
    createHandler dns sf b db =
      match db.urls.find? (fun m => m.original_url == u) with
      | some existing => (⟨200, .mapping existing.original_url existing.short_url⟩, db)
      | none =>
        if sf then
          (serverErrorResp, ⟨db.urls, (counterIncr db.counters ("url_count")).2⟩)
        else
          (⟨200, .mapping u ((counterFind db.counters ("url_count")).getD 0 + 1)⟩,
            ⟨db.urls ++ [⟨u, (counterFind db.counters ("url_count")).getD 0 + 1⟩],
              (counterIncr db.counters ("url_count")).2⟩) := by
  obtain ⟨hne, hvalid, h, hh, hhne, hdns⟩ := hv
  have ht : jsTruthy u = true := by simp [jsTruthy, hne]
  have hb2 : (h == ("")) = false := by simp [hhne]
  simp only [createHandler, hb, ht, hvalid, hh, hb2, hdns, Bool.not_true,
    Bool.or_self, Bool.false_eq_true, if_false, Bool.not_false, if_true]
  cases hF : db.urls.find? (fun m => m.original_url == u) with
  | some existing => rfl
  | none =>
    cases sf with
    | true => simp [getNextSequence]
    | false => simp [getNextSequence, counterIncr_fst]

theorem createHandler_found (dns : String → Bool) (sf : Bool) (b : ReqBody) (db : DB)
    (u : String) (m : UrlMapping) (hb : extractUrl b = some u) (hv : validFor dns u)
    (hfind : db.urls.find? (fun y => y.original_url == u) = some m) :
    createHandler dns sf b db = (⟨200, .mapping m.original_url m.short_url⟩, db) := by
  rw [createHandler_validated dns sf b db u hb hv, hfind]

theorem createHandler_new (dns : String → Bool) (sf : Bool) (b : ReqBody) (db : DB)
    (u : String) (hb : extractUrl b = some u) (hv : validFor dns u)
    (hfind : db.urls.find? (fun y => y.original_url == u) = none) :
    createHandler dns sf b db =
      if sf then
        (serverErrorResp, ⟨db.urls, (counterIncr db.counters ("url_count")).2⟩)
      else
        (⟨200, .mapping u (counterVal db ("url_count") + 1)⟩,
          ⟨db.urls ++ [⟨u, counterVal db ("url_count") + 1⟩],
            (counterIncr db.counters ("url_count")).2⟩) := by
  rw [createHandler_validated dns sf b db u hb hv, hfind]
  rfl

/-! ### Claim theorems -/

/-- C4: for every invalid create input — the unparsable string `not a url`,
the non-http scheme `ftp://example.com`, the empty string, or a well-formed
URL whose hostname fails resolution — the response is HTTP 200 with body
`{"error": "invalid url"}`, identical for every failure cause, and the
state is unchanged. -/
theorem create_rejects_invalid_inputs :
    (∀ (dns : String → Bool) (sf : Bool) (db : DB),
      createHandler dns sf ⟨some ("not a url"), none, none⟩ db =
        (⟨200, .errorMsg ("invalid url")⟩, db)) ∧
    (∀ (dns : String → Bool) (sf : Bool) (db : DB),
      createHandler dns sf ⟨some ("ftp://example.com"), none, none⟩ db =
        (⟨200, .errorMsg ("invalid url")⟩, db)) ∧
    (∀ (dns : String → Bool) (sf : Bool) (db : DB),
      createHandler dns sf ⟨some (""), none, none⟩ db =
        (⟨200, .errorMsg ("invalid url")⟩, db)) ∧
    (∀ (dns : String → Bool) (sf : Bool) (db : DB) (b : ReqBody) (u h : String),
      extractUrl b = some u → u ≠ ("") → isValidHttpUrl u = true →
      getHostname u = some h → dns h = false →
      createHandler dns sf b db = (⟨200, .errorMsg ("invalid url")⟩, db)) := by
  refine ⟨?_, ?_, ?_, ?_⟩
  · intro dns sf db
    have h1 : extractUrl ⟨some ("not a url"), none, none⟩ = some ("not a url") := by decide
    have h2 : isValidHttpUrl ("not a url") = false := by decide
    have h3 : jsTruthy ("not a url") = true := by decide
    simp [createHandler, h1, h2, h3, invalidResp]
  · intro dns sf db
    have h1 : extractUrl ⟨some ("ftp://example.com"), none, none⟩ =
        some ("ftp://example.com") := by decide
    have h2 : isValidHttpUrl ("ftp://example.com") = false := by decide
    have h3 : jsTruthy ("ftp://example.com") = true := by decide
    simp [createHandler, h1, h2, h3, invalidResp]
  · intro dns sf db
    have h1 : extractUrl ⟨some (""), none, none⟩ = none := by decide
    simp [createHandler, h1, invalidResp]
  · intro dns sf db b u h hb hne hvalid hh hdns
    have ht : jsTruthy u = true := by simp [jsTruthy, hne]
    by_cases hhe : h = ("")
    · subst hhe
      simp [createHandler, hb, ht, hvalid, hh, invalidResp]
    · have hb2 : (h == ("")) = false := by simp [hhe]
      simp [createHandler, hb, ht, hvalid, hh, hb2, hdns, invalidResp]

/-- C4 witness: a syntactically valid URL whose hostname does not resolve
is rejected with the invalid-url payload. -/
theorem create_rejects_invalid_inputs_witness :
    createHandler (fun _ => false) false ⟨some ("http://nohost.example"), none, none⟩
      dbEmpty = (⟨200, .errorMsg ("invalid url")⟩, dbEmpty) :=
  create_rejects_invalid_inputs.2.2.2 (fun _ => false) false dbEmpty
    ⟨some ("http://nohost.example"), none, none⟩ ("http://nohost.example")
    ("nohost.example") (by decide) (by decide) (by decide) (by decide) rfl

/-- C5 counterexample: with body `{url: "", original_url: "http://x.example"}`
the code's extraction (JavaScript `||`, which skips falsy values) differs
from the claimed first-present-field extraction. -/
theorem extract_presence_counterexample :
    extractUrl ⟨some (""), some ("http://x.example"), none⟩ ≠
      extractUrlClaimed ⟨some (""), some ("http://x.example"), none⟩ := by decide

/-- C5 amended: the candidate URL is the first field among `url`,
`original_url`, `input` that is present with a truthy (non-empty) value; a
field present with an empty value is skipped.  Stated for truthy candidates,
the only ones the handler accepts. -/
theorem extract_first_truthy_field (b : ReqBody) (s : String) (hs : s ≠ ("")) :
    extractUrl b = some s ↔
      ([b.url, b.original_url, b.input].filterMap id).find?
        (fun t => !(t == (""))) = some s := by
  obtain ⟨u0, o0, i0⟩ := b
  have hb : (s == ("")) = false := by simp [hs]
  cases u0 <;> cases o0 <;> cases i0 <;>
    simp only [extractUrl, jsOrStr, jsTruthy, List.filterMap_cons, List.filterMap_nil,
      id_eq, find?_cons_ite, List.find?_nil] <;>
    split_ifs <;>
    simp_all <;>
    exact fun h => hs h.symm

/-- C5 amended witness: with only `input` set, that field's value is the
candidate. -/
theorem extract_first_truthy_field_witness :
    extractUrl ⟨none, none, some ("http://a.example")⟩ = some ("http://a.example") :=
  (extract_first_truthy_field ⟨none, none, some ("http://a.example")⟩
    ("http://a.example") (by decide)).mpr (by decide)

/-- C6: a resolve whose path parameter is not a finite number answers
HTTP 200 with `{"error": "invalid url"}` — never 500 or 404 — and performs
no store lookup, whether or not the store would fail. -/
theorem resolve_nonnumeric_invalid (dbf : Bool) (db : DB) (p : String)
    (h : jsNumber p = none) :
    resolveHandler dbf db p = (⟨200, .errorMsg ("invalid url")⟩, 0) := by
  simp [resolveHandler, h, invalidResp]

/-- C6 witness: resolving `abc` yields the invalid-url response with no
lookup. -/
theorem resolve_nonnumeric_invalid_witness :
    jsNumber ("abc") = none ∧
      resolveHandler false dbEmpty ("abc") = (⟨200, .errorMsg ("invalid url")⟩, 0) :=
  ⟨by decide, resolve_nonnumeric_invalid false dbEmpty ("abc") (by decide)⟩

/-- C7: a resolve whose path parameter is a finite number matching no stored
mapping answers HTTP 404 with `{"error": "No short URL found for given input"}`. -/
theorem resolve_unknown_id_404 (db : DB) (p : String) (v : JsNum)
    (h1 : jsNumber p = some v)
    (h2 : db.urls.find? (fun m => v.eqNat m.short_url) = none) :
    resolveHandler false db p =
      (⟨404, .errorMsg ("No short URL found for given input")⟩, 1) := by
  simp [resolveHandler, h1, h2, notFoundResp]

/-- C7 witness: resolving 999999 against a store with ids 1, 2, 3 yields
the 404 response. -/
theorem resolve_unknown_id_404_witness :
    resolveHandler false db3 ("999999") =
      (⟨404, .errorMsg ("No short URL found for given input")⟩, 1) :=
  resolve_unknown_id_404 db3 ("999999") ⟨999999, 0⟩ (by decide) (by decide)

/-- C10: the resolve identifier check accepts every string that `Number()`
converts to a finite value, integral or not: any such string proceeds to a
store lookup, and in particular `3.5` and `1e3` are accepted and answer the
404 not-found response (not the invalid-url response) when no mapping has
that numeric value. -/
theorem resolve_finite_check_semantics :
    (∀ (p : String) (v : JsNum) (db : DB), jsNumber p = some v →
      (resolveHandler false db p).2 = 1) ∧
    jsNumber ("3.5") = some ⟨35, -1⟩ ∧
    jsNumber ("1e3") = some ⟨1, 3⟩ ∧
    resolveHandler false db3 ("3.5") =
      (⟨404, .errorMsg ("No short URL found for given input")⟩, 1) ∧
    resolveHandler false db3 ("1e3") =
      (⟨404, .errorMsg ("No short URL found for given input")⟩, 1) := by
  refine ⟨?_, by decide, by decide, by decide, by decide⟩
  intro p v db h
  simp only [resolveHandler, h]
  cases db.urls.find? (fun m => v.eqNat m.short_url) <;> simp

/-- C10 witness: the non-integral finite value `3.5` triggers exactly one
store lookup. -/
theorem resolve_finite_check_semantics_witness :
    (resolveHandler false db3 ("3.5")).2 = 1 :=
  resolve_finite_check_semantics.1 ("3.5") ⟨35, -1⟩ db3 (by decide)

theorem createAll_run (dns : String → Bool) (us : List String) : ∀ (db : DB),
    us.Nodup → (∀ u ∈ us, validFor dns u) →
    (∀ u ∈ us, db.urls.find? (fun m => m.original_url == u) = none) →
    (createAll dns db us).1 = seqResps us (counterVal db ("url_count") + 1) ∧
    (createAll dns db us).2.urls =
      db.urls ++ newEntries us (counterVal db ("url_count") + 1) ∧
    counterVal (createAll dns db us).2 ("url_count") =
      counterVal db ("url_count") + us.length := by
  induction us with
  | nil => intro db _ _ _; simp [createAll, seqResps, newEntries]
  | cons u us ih =>
    intro db hnd hv hnew
    obtain ⟨hu_notin, hnd'⟩ := List.nodup_cons.1 hnd
    have hvu : validFor dns u := hv u (List.mem_cons_self u us)
    have hnu := hnew u (List.mem_cons_self u us)
    have hbu : extractUrl ⟨some u, none, none⟩ = some u := by
      obtain ⟨hne, _, _⟩ := hvu
      simp [extractUrl, jsOrStr, jsTruthy, hne]
    have hstep : createHandler dns false ⟨some u, none, none⟩ db =
        (⟨200, .mapping u (counterVal db ("url_count") + 1)⟩,
          ⟨db.urls ++ [⟨u, counterVal db ("url_count") + 1⟩],
            (counterIncr db.counters ("url_count")).2⟩) := by
      rw [createHandler_new dns false ⟨some u, none, none⟩ db u hbu hvu hnu]
      rfl
    have hdb1cnt : counterVal ⟨db.urls ++ [⟨u, counterVal db ("url_count") + 1⟩],
        (counterIncr db.counters ("url_count")).2⟩ ("url_count") =
        counterVal db ("url_count") + 1 := by
      simp [counterVal, counterFind_counterIncr]
    have hnew1 : ∀ u' ∈ us,
        (db.urls ++ ([⟨u, counterVal db ("url_count") + 1⟩] : List UrlMapping)).find?
          (fun m => m.original_url == u') = none := by
      intro u' hu'
      have hne' : (u == u') = false := by
        simp only [beq_eq_false_iff_ne]
        intro hEq; exact hu_notin (hEq ▸ hu')
      simp [List.find?_append, hnew u' (List.mem_cons_of_mem u hu'), find?_cons_ite, hne']
    have ihres := ih ⟨db.urls ++ [⟨u, counterVal db ("url_count") + 1⟩],
        (counterIncr db.counters ("url_count")).2⟩ hnd'
      (fun u' h => hv u' (List.mem_cons_of_mem u h)) hnew1
    rw [hdb1cnt] at ihres
    rcases ihres with ⟨ih1, ih2, ih3⟩
    simp only [createAll]
    rw [hstep]
    refine ⟨?_, ?_, ?_⟩
    · simp only [seqResps]
      rw [← ih1]
    · rw [ih2]
      simp [newEntries, List.append_assoc]
    · rw [ih3]
      simp only [List.length_cons]
      omega

/-- C2: starting from a fresh (absent) counter row and an empty store, N
sequential creates of pairwise-distinct valid URLs return the ids
1, 2, …, N in submission order; moreover every allocator call returns the
post-increment counter value, an absent row counting as 0 before the
increment. -/
theorem create_sequential_ids (dns : String → Bool) (db : DB) (us : List String)
    (hurls : db.urls = []) (hcnt : counterFind db.counters ("url_count") = none)
    (hnd : us.Nodup) (hv : ∀ u ∈ us, validFor dns u) :
    (createAll dns db us).1 = seqResps us 1 ∧
    (∀ (d : DB) (name : String),
      (getNextSequence name d).1 = (counterFind d.counters name).getD 0 + 1 ∧
      counterFind (getNextSequence name d).2.counters name =
        some ((counterFind d.counters name).getD 0 + 1)) := by
  constructor
  · have hzero : counterVal db ("url_count") = 0 := by simp [counterVal, hcnt]
    have hnone : ∀ u ∈ us, db.urls.find? (fun m => m.original_url == u) = none := by
      intro u _
      rw [hurls]
      rfl
    have h := (createAll_run dns us db hnd hv hnone).1
    rw [hzero] at h
    exact h
  · intro d name
    exact ⟨by simp [getNextSequence, counterIncr_fst],
      by simp [getNextSequence, counterFind_counterIncr]⟩

/-- C2 witness: two sequential creates of distinct valid URLs from the
empty state return ids 1 and 2 in order. -/
theorem create_sequential_ids_witness :
    (createAll (fun _ => true) dbEmpty [("http://a.example"), ("http://b.example")]).1 =
      seqResps [("http://a.example"), ("http://b.example")] 1 := by
  have hv : ∀ u ∈ [("http://a.example"), ("http://b.example")],
      validFor (fun _ => true) u := by
    intro u hu
    rcases List.mem_cons.1 hu with rfl | hu'
    · exact ⟨by decide, by decide, ("a.example"), by decide, by decide, rfl⟩
    · rcases List.mem_cons.1 hu' with rfl | hu''
      · exact ⟨by decide, by decide, ("b.example"), by decide, by decide, rfl⟩
      · simp at hu''
  exact (create_sequential_ids (fun _ => true) dbEmpty
    [("http://a.example"), ("http://b.example")] rfl rfl (by decide) hv).1

/-- C3: create is idempotent on the stored `original_url` string: when a
mapping for the submitted URL already exists, create returns it unchanged
(same id) and leaves the whole state — in particular the counter — intact,
so the allocator is never invoked. -/
theorem create_idempotent_existing (dns : String → Bool) (sf : Bool) (db : DB)
    (b : ReqBody) (u : String) (m : UrlMapping)
    (hb : extractUrl b = some u) (hv : validFor dns u)
    (hfind : db.urls.find? (fun y => y.original_url == u) = some m) :
    createHandler dns sf b db = (⟨200, .mapping u m.short_url⟩, db) := by
  have hmu : m.original_url = u := by simpa using List.find?_some hfind
  rw [createHandler_found dns sf b db u m hb hv hfind, hmu]

/-- C3 witness: re-submitting the already-stored URL of `db3` returns the
stored id 1 and leaves the state unchanged. -/
theorem create_idempotent_existing_witness :
    createHandler (fun _ => true) false ⟨some ("http://one.example"), none, none⟩ db3 =
      (⟨200, .mapping ("http://one.example") 1⟩, db3) :=
  create_idempotent_existing (fun _ => true) false db3
    ⟨some ("http://one.example"), none, none⟩ ("http://one.example")
    ⟨("http://one.example"), 1⟩ (by decide)
    ⟨by decide, by decide, ("one.example"), by decide, by decide, rfl⟩ (by decide)

/-- C8: when the insert step fails after the allocator ran, the response is
HTTP 500 with `{"error": "server error"}`, no mapping is inserted, the
counter increment is not rolled back, and the next allocation returns a
strictly larger value, leaving the failed id permanently skipped. -/
theorem create_save_failure_skips_id (dns : String → Bool) (db : DB) (b : ReqBody)
    (u : String) (hb : extractUrl b = some u) (hv : validFor dns u)
    (hnew : db.urls.find? (fun m => m.original_url == u) = none) :
    (createHandler dns true b db).1 = ⟨500, .errorMsg ("server error")⟩ ∧
    (createHandler dns true b db).2.urls = db.urls ∧
    counterVal (createHandler dns true b db).2 ("url_count") =
      counterVal db ("url_count") + 1 ∧
    (getNextSequence ("url_count") (createHandler dns true b db).2).1 =
      counterVal db ("url_count") + 2 := by
  have h : createHandler dns true b db =
      (serverErrorResp, ⟨db.urls, (counterIncr db.counters ("url_count")).2⟩) := by
    rw [createHandler_new dns true b db u hb hv hnew]
    rfl
  rw [h]
  refine ⟨rfl, rfl, ?_, ?_⟩
  · simp [counterVal, counterFind_counterIncr]
  · simp only [getNextSequence, counterIncr_fst, counterFind_counterIncr]
    simp [counterVal]

/-- C8 witness: a failing save on a fresh URL answers 500, inserts nothing,
and advances the counter of `db3` from 3 to 4. -/
theorem create_save_failure_skips_id_witness :
    (createHandler (fun _ => true) true ⟨some ("http://new.example"), none, none⟩ db3).1 =
      ⟨500, .errorMsg ("server error")⟩ ∧
    (createHandler (fun _ => true) true ⟨some ("http://new.example"), none, none⟩ db3).2.urls =
      db3.urls :=
  ⟨(create_save_failure_skips_id (fun _ => true) db3
      ⟨some ("http://new.example"), none, none⟩ ("http://new.example") (by decide)
      ⟨by decide, by decide, ("new.example"), by decide, by decide, rfl⟩ (by decide)).1,
    (create_save_failure_skips_id (fun _ => true) db3
      ⟨some ("http://new.example"), none, none⟩ ("http://new.example") (by decide)
      ⟨by decide, by decide, ("new.example"), by decide, by decide, rfl⟩ (by decide)).2.1⟩

theorem createHandler_urls_cases (dns : String → Bool) (sf : Bool) (b : ReqBody)
    (db : DB) :
    (createHandler dns sf b db).2.urls = db.urls ∨
    ∃ u k, db.urls.find? (fun m => m.original_url == u) = none ∧
      (createHandler dns sf b db).2.urls = db.urls ++ [⟨u, k⟩] := by
  unfold createHandler
  split
  · exact Or.inl rfl
  · split
    · exact Or.inl rfl
    · split
      · exact Or.inl rfl
      · split
        · exact Or.inl rfl
        · split
          · exact Or.inl rfl
          · split
            · exact Or.inl rfl
            · split
              · exact Or.inl rfl
              · refine Or.inr ⟨_, _, ?_, rfl⟩
                assumption

/-- C9: sequential create preserves pairwise distinctness of the stored
`original_url` values: it looks the URL up first and inserts only when no
mapping with that `original_url` exists. -/
theorem create_preserves_distinct_urls (dns : String → Bool) (sf : Bool) (b : ReqBody)
    (db : DB) (h : (db.urls.map (fun m => m.original_url)).Nodup) :
    ((createHandler dns sf b db).2.urls.map (fun m => m.original_url)).Nodup := by
  rcases createHandler_urls_cases dns sf b db with hcase | ⟨u, k, hfind, hcase⟩
  · rw [hcase]; exact h
  · rw [hcase, List.map_append, List.nodup_append]
    refine ⟨h, List.nodup_singleton _, ?_⟩
    intro a ha hbmem
    rcases List.mem_map.1 ha with ⟨x, hx, rfl⟩
    have hnf := List.find?_eq_none.1 hfind x hx
    simp only [List.map_cons, List.map_nil, List.mem_singleton] at hbmem
    exact hnf (by simp [hbmem])

/-- C9 witness: a create of a fresh URL against `db3`, whose stored URLs
are pairwise distinct, preserves that distinctness. -/
theorem create_preserves_distinct_urls_witness :
    ((createHandler (fun _ => true) false ⟨some ("http://new.example"), none, none⟩
      db3).2.urls.map (fun m => m.original_url)).Nodup :=
  create_preserves_distinct_urls (fun _ => true) false
    ⟨some ("http://new.example"), none, none⟩ db3 (by decide)

/-- C1: for every valid absolute http/https URL with a resolvable hostname,
create answers the submitted URL with some id, and a resolve of any string
denoting that id issues an HTTP 302 redirect to the original URL submitted
at create time. -/
theorem create_then_resolve_redirects (dns : String → Bool) (db : DB) (b : ReqBody)
    (u : String) (hwf : DB.WF db) (hb : extractUrl b = some u) (hv : validFor dns u) :
    ∃ id : Nat,
      (createHandler dns false b db).1 = ⟨200, .mapping u id⟩ ∧
      ∀ (p : String) (v : JsNum), jsNumber p = some v → v.eqNat id = true →
        resolveHandler false (createHandler dns false b db).2 p =
          (⟨302, .redirect u⟩, 1) := by
  obtain ⟨hnd, hle⟩ := hwf
  cases hF : db.urls.find? (fun m => m.original_url == u) with
  | some m =>
    have hmu : m.original_url = u := by simpa using List.find?_some hF
    have h := createHandler_found dns false b db u m hb hv hF
    refine ⟨m.short_url, ?_, ?_⟩
    · rw [h, hmu]
    · intro p v hp hvnum
      rw [h]
      simp only [resolveHandler, hp]
      have hfind := find?_eqNat_unique hnd (List.mem_of_find?_eq_some hF) hvnum
      simp [hfind, hmu]
  | none =>
    have h : createHandler dns false b db =
        (⟨200, .mapping u (counterVal db ("url_count") + 1)⟩,
          ⟨db.urls ++ [⟨u, counterVal db ("url_count") + 1⟩],
            (counterIncr db.counters ("url_count")).2⟩) := by
      rw [createHandler_new dns false b db u hb hv hF]
      rfl
    refine ⟨counterVal db ("url_count") + 1, ?_, ?_⟩
    · rw [h]
    · intro p v hp hvnum
      rw [h]
      simp only [resolveHandler, hp]
      have hnotin : (counterVal db ("url_count") + 1) ∉
          db.urls.map (fun x => x.short_url) := by
        intro hmem
        rcases List.mem_map.1 hmem with ⟨x, hx, hxid⟩
        have hxle : x.short_url ≤ counterVal db ("url_count") := hle x hx
        omega
      have hnd2 : ((db.urls ++
          ([⟨u, counterVal db ("url_count") + 1⟩] : List UrlMapping)).map
          (fun x => x.short_url)).Nodup := by
        rw [List.map_append, List.nodup_append]
        refine ⟨hnd, List.nodup_singleton _, ?_⟩
        intro a ha hbmem
        simp only [List.map_cons, List.map_nil, List.mem_singleton] at hbmem
        subst hbmem
        exact hnotin ha
      have hmem2 : (⟨u, counterVal db ("url_count") + 1⟩ : UrlMapping) ∈
          db.urls ++ ([⟨u, counterVal db ("url_count") + 1⟩] : List UrlMapping) := by
        simp
      have hfind := find?_eqNat_unique hnd2 hmem2 hvnum
      simp [hfind]

/-- C1 witness: creating `http://example.com` in the empty state then
resolving the returned id redirects to `http://example.com`. -/
theorem create_then_resolve_redirects_witness :
    ∃ id : Nat,
      (createHandler (fun _ => true) false ⟨some ("http://example.com"), none, none⟩
        dbEmpty).1 = ⟨200, .mapping ("http://example.com") id⟩ ∧
      ∀ (p : String) (v : JsNum), jsNumber p = some v → v.eqNat id = true →
        resolveHandler false (createHandler (fun _ => true) false
          ⟨some ("http://example.com"), none, none⟩ dbEmpty).2 p =
          (⟨302, .redirect ("http://example.com")⟩, 1) :=
  create_then_resolve_redirects (fun _ => true) dbEmpty
    ⟨some ("http://example.com"), none, none⟩ ("http://example.com")
    ⟨by decide, by decide⟩ (by decide)
    ⟨by decide, by decide, ("example.com"), by decide, by decide, rfl⟩

end UrlShortener
